import Mathlib

/-!
Shallow embedding of the face-recognition attendance tracker
(`backend/models.py`, `backend/face_utils.py`, `backend/app.py`).

Database tables are lists of records; a SQLAlchemy session is the database
value plus a commit counter.  Calendar days and timestamps are opaque `Nat`
values (the code computes both with `datetime.now(ZoneInfo("Asia/Kolkata"))`;
here the current day and instant are passed in as parameters).  LBPH
confidences are rationals.  Camera interaction is modelled by passing the
sequence of frames the loop would read; an operator key press or a failed
`cap.read()` ends the sequence.
-/

namespace FaceAttendance

/-- Row of the students table in `models.py` (`sect` models the `section`
column). -/
structure Student where
  id : Nat
  roll_no : String
  name : String
  email : String
  klass : String
  sect : String
  image_path : Option String
deriving Repr, DecidableEq

/-- Row of the attendance table in `models.py`: one record per (student, day);
`timestamp` is nullable, set only when marked present. -/
structure Attendance where
  id : Nat
  student_id : Nat
  day : Nat
  status : String
  timestamp : Option Nat
deriving Repr, DecidableEq

/-- The relational state: the `students` and `attendance` tables, plus the
autoincrement counters for their integer primary keys. -/
structure DB where
  students : List Student
  attendance : List Attendance
  nextStudentId : Nat
  nextAttId : Nat
deriving Repr, DecidableEq

/-- A unit of work: the database plus how many commits were issued. -/
structure Session where
  db : DB
  commits : Nat
deriving Repr, DecidableEq

/-- Number of attendance rows for the (student, day) pair — used to state
the `uq_student_day` uniqueness constraint and row-count properties. -/
def countAtt (atts : List Attendance) (sid d : Nat) : Nat :=
  (atts.filter (fun a => a.student_id == sid && a.day == d)).length

/-- Model of `session.query(Attendance).filter_by(student_id=sid, day=d).one_or_none()`
(under the `uq_student_day` constraint at most one row matches). -/
def findAtt (atts : List Attendance) (sid d : Nat) : Option Attendance :=
  atts.find? (fun a => a.student_id == sid && a.day == d)

/-- The loop body of `ensure_day_rows`: walk the student list queried at
entry; for each student lacking a row for `d`, `session.add` an `Absent`
row (no timestamp). -/
def ensureDayRowsAux (studs : List Student) (d : Nat) (db : DB) : DB :=
  match studs with
  | [] => db
  | s :: rest =>
    let db' :=
      if (findAtt db.attendance s.id d).isSome then db
      else { db with
              attendance := db.attendance ++
                [{ id := db.nextAttId, student_id := s.id, day := d,
                   status := "Absent", timestamp := none }],
              nextAttId := db.nextAttId + 1 }
    ensureDayRowsAux rest d db'

/-- Model of `models.ensure_day_rows(session, the_day)`: seed an `Absent` row for
every student missing one for `the_day`, then `session.commit()` once. -/
def ensure_day_rows (sess : Session) (d : Nat) : Session :=
  { db := ensureDayRowsAux sess.db.students d sess.db
    commits := sess.commits + 1 }

/-! ### Basic lemmas about row counting and `ensure_day_rows` -/

lemma countAtt_append (l1 l2 : List Attendance) (sid d : Nat) :
    countAtt (l1 ++ l2) sid d = countAtt l1 sid d + countAtt l2 sid d := by
  simp [countAtt, List.filter_append]

lemma countAtt_singleton (a : Attendance) (sid d : Nat) :
    countAtt [a] sid d = if a.student_id = sid ∧ a.day = d then 1 else 0 := by
  by_cases h1 : a.student_id = sid <;> by_cases h2 : a.day = d <;>
    simp [countAtt, List.filter_singleton, h1, h2]

lemma findAtt_isSome_iff (atts : List Attendance) (sid d : Nat) :
    (findAtt atts sid d).isSome ↔ 0 < countAtt atts sid d := by
  rw [findAtt, countAtt, List.find?_isSome, List.length_pos]
  constructor
  · rintro ⟨a, ha, hp⟩
    intro hnil
    have ham : a ∈ List.filter (fun a => a.student_id == sid && a.day == d) atts :=
      List.mem_filter.mpr ⟨ha, hp⟩
    simp [hnil] at ham
  · intro hne
    rcases List.exists_mem_of_ne_nil _ hne with ⟨a, ha⟩
    have hm := List.mem_filter.mp ha
    exact ⟨a, hm.1, hm.2⟩

lemma ensureDayRowsAux_students (studs : List Student) (d : Nat) (db : DB) :
    (ensureDayRowsAux studs d db).students = db.students := by
  induction studs generalizing db with
  | nil => rfl
  | cons s rest ih =>
    simp only [ensureDayRowsAux]
    split <;> simp [ih]

/-- Complete characterization of the effect of `ensure_day_rows` on row counts:
a (student, day) pair gains a row exactly when the day is the seeded day,
the student id occurs in the walked list, and no row existed; every other
count is untouched. -/
lemma countAtt_ensureDayRowsAux (studs : List Student) (d : Nat) (db : DB)
    (sid d' : Nat) :
    countAtt (ensureDayRowsAux studs d db).attendance sid d' =
      if d' = d ∧ (∃ s ∈ studs, s.id = sid) ∧ countAtt db.attendance sid d = 0
      then 1 else countAtt db.attendance sid d' := by
  induction studs generalizing db with
  | nil => simp [ensureDayRowsAux]
  | cons s rest ih =>
    simp only [ensureDayRowsAux]
    by_cases hfound : (findAtt db.attendance s.id d).isSome
    · rw [if_pos hfound, ih]
      have hpos : 0 < countAtt db.attendance s.id d :=
        (findAtt_isSome_iff _ _ _).mp hfound
      have hiff : (d' = d ∧ (∃ t ∈ rest, t.id = sid) ∧
            countAtt db.attendance sid d = 0) ↔
          (d' = d ∧ (∃ t ∈ s :: rest, t.id = sid) ∧
            countAtt db.attendance sid d = 0) := by
        constructor
        · rintro ⟨hd, ⟨t, ht, hid⟩, hc⟩
          exact ⟨hd, ⟨t, List.mem_cons_of_mem _ ht, hid⟩, hc⟩
        · rintro ⟨hd, ⟨t, ht, hid⟩, hc⟩
          rcases List.mem_cons.mp ht with h0 | h0
          · subst h0; rw [← hid] at hc; omega
          · exact ⟨hd, ⟨t, h0, hid⟩, hc⟩
      exact if_congr hiff rfl rfl
    · rw [if_neg hfound, ih]
      have hzero : countAtt db.attendance s.id d = 0 := by
        by_contra hc
        exact hfound ((findAtt_isSome_iff _ _ _).mpr (by omega))
      dsimp only
      have hcnt : ∀ sid' d'', countAtt (db.attendance ++
          [{ id := db.nextAttId, student_id := s.id, day := d,
             status := "Absent", timestamp := none }]) sid' d'' =
          countAtt db.attendance sid' d'' +
            if s.id = sid' ∧ d = d'' then 1 else 0 := by
        intro sid' d''
        rw [countAtt_append, countAtt_singleton]
      simp only [hcnt]
      by_cases hsid : s.id = sid
      · subst hsid
        have hex : ∃ t ∈ s :: rest, t.id = s.id := ⟨s, List.mem_cons_self _ _, rfl⟩
        by_cases hd : d' = d
        · subst hd
          simp [hzero, hex]
        · have hnd : ¬ (d = d') := fun hc => hd hc.symm
          simp [hzero, hd, hnd]
      · have hrest : (∃ t ∈ s :: rest, t.id = sid) ↔ (∃ t ∈ rest, t.id = sid) := by
          constructor
          · rintro ⟨t, ht, h⟩
            rcases List.mem_cons.mp ht with h0 | h0
            · exact absurd (h0 ▸ h) hsid
            · exact ⟨t, h0, h⟩
          · rintro ⟨t, ht, h⟩; exact ⟨t, List.mem_cons_of_mem _ ht, h⟩
        simp [hsid, hrest]

/-- Rows produced by the seeding loop are appended after the existing ones;
each inserted row is an `Absent`, timestamp-free row for the seeded day, for
a walked student that had no row for that day. -/
lemma ensureDayRowsAux_append (studs : List Student) (d : Nat) (db : DB) :
    ∃ ins, (ensureDayRowsAux studs d db).attendance = db.attendance ++ ins ∧
      ∀ a ∈ ins, a.day = d ∧ a.status = "Absent" ∧ a.timestamp = none ∧
        countAtt db.attendance a.student_id d = 0 ∧
        ∃ s ∈ studs, s.id = a.student_id := by
  induction studs generalizing db with
  | nil => exact ⟨[], by simp [ensureDayRowsAux]⟩
  | cons s rest ih =>
    simp only [ensureDayRowsAux]
    by_cases hfound : (findAtt db.attendance s.id d).isSome
    · rw [if_pos hfound]
      rcases ih db with ⟨ins, h1, h2⟩
      refine ⟨ins, h1, fun a ha => ?_⟩
      rcases h2 a ha with ⟨hd, hs, ht, hc, t, htm, hti⟩
      exact ⟨hd, hs, ht, hc, t, List.mem_cons_of_mem _ htm, hti⟩
    · rw [if_neg hfound]
      have hzero : countAtt db.attendance s.id d = 0 := by
        by_contra hc
        exact hfound ((findAtt_isSome_iff _ _ _).mpr (by omega))
      set r : Attendance :=
        { id := db.nextAttId, student_id := s.id, day := d,
          status := "Absent", timestamp := none } with hr
      obtain ⟨ins, h1, h2⟩ :=
        ih ({ db with attendance := db.attendance ++ [r], nextAttId := db.nextAttId + 1 })
      refine ⟨r :: ins, ?_, ?_⟩
      · rw [h1]; simp
      · intro a ha
        rcases List.mem_cons.mp ha with h0 | h0
        · subst h0
          exact ⟨rfl, rfl, rfl, hzero, s, List.mem_cons_self _ _, rfl⟩
        · rcases h2 a h0 with ⟨hd, hs, ht, hc, t, htm, hti⟩
          have hc' : countAtt db.attendance a.student_id d = 0 := by
            have := countAtt_append db.attendance [r] a.student_id d
            dsimp only at hc
            omega
          exact ⟨hd, hs, ht, hc', t, List.mem_cons_of_mem _ htm, hti⟩

lemma ensureDayRowsAux_noop (studs : List Student) (d : Nat) (db : DB)
    (h : ∀ s ∈ studs, (findAtt db.attendance s.id d).isSome) :
    ensureDayRowsAux studs d db = db := by
  induction studs with
  | nil => rfl
  | cons s rest ih =>
    simp only [ensureDayRowsAux]
    rw [if_pos (h s (List.mem_cons_self _ _))]
    exact ih fun t ht => h t (List.mem_cons_of_mem _ ht)

lemma ensureDayRowsAux_covers (studs : List Student) (d : Nat) (db : DB) :
    ∀ s ∈ studs, (findAtt (ensureDayRowsAux studs d db).attendance s.id d).isSome := by
  intro s hs
  rw [findAtt_isSome_iff, countAtt_ensureDayRowsAux]
  split
  · omega
  · next hcond =>
    have hex : ∃ t ∈ studs, t.id = s.id := ⟨s, hs, rfl⟩
    rcases Nat.eq_zero_or_pos (countAtt db.attendance s.id d) with h0 | h0
    · exact absurd ⟨rfl, hex, h0⟩ hcond
    · exact h0

/-- C1: on any database state satisfying the (student, day) uniqueness
constraint, `ensure_day_rows(d)` leaves exactly one attendance row per
existing student for day `d`; the rows it inserts are `Absent`,
timestamp-free rows exactly for the students that lacked one; a second call
for the same day changes nothing in the database (idempotence, no error);
and each call commits exactly once. -/
theorem ensure_day_rows_exactly_one_idempotent (sess : Session) (d : Nat)
    (huniq : ∀ s ∈ sess.db.students, countAtt sess.db.attendance s.id d ≤ 1) :
    (∀ s ∈ sess.db.students,
        countAtt (ensure_day_rows sess d).db.attendance s.id d = 1) ∧
    (ensure_day_rows sess d).db.students = sess.db.students ∧
    (∃ ins, (ensure_day_rows sess d).db.attendance = sess.db.attendance ++ ins ∧
      ∀ a ∈ ins, a.day = d ∧ a.status = "Absent" ∧ a.timestamp = none ∧
        countAtt sess.db.attendance a.student_id d = 0 ∧
        ∃ s ∈ sess.db.students, s.id = a.student_id) ∧
    (ensure_day_rows (ensure_day_rows sess d) d).db = (ensure_day_rows sess d).db ∧
    (ensure_day_rows sess d).commits = sess.commits + 1 := by
  refine ⟨?_, ensureDayRowsAux_students _ _ _, ensureDayRowsAux_append _ _ _, ?_, rfl⟩
  · intro s hs
    rw [show (ensure_day_rows sess d).db = ensureDayRowsAux sess.db.students d sess.db
        from rfl, countAtt_ensureDayRowsAux]
    have hle := huniq s hs
    have hex : ∃ t ∈ sess.db.students, t.id = s.id := ⟨s, hs, rfl⟩
    split
    · rfl
    · next hcond =>
      rcases Nat.eq_zero_or_pos (countAtt sess.db.attendance s.id d) with h0 | h0
      · exact absurd ⟨rfl, hex, h0⟩ hcond
      · omega
  · show ensureDayRowsAux (ensure_day_rows sess d).db.students d
        (ensure_day_rows sess d).db = (ensure_day_rows sess d).db
    apply ensureDayRowsAux_noop
    rw [show (ensure_day_rows sess d).db = ensureDayRowsAux sess.db.students d sess.db
        from rfl, ensureDayRowsAux_students]
    exact ensureDayRowsAux_covers sess.db.students d sess.db

/-- Witness for C1 at a concrete one-student, empty-attendance database. -/
theorem ensure_day_rows_exactly_one_idempotent_witness :
    (∀ s ∈ (⟨⟨[⟨1, "R1", "Alice", "", "", "", none⟩], [], 2, 1⟩, 0⟩ :
        Session).db.students,
      countAtt (⟨⟨[⟨1, "R1", "Alice", "", "", "", none⟩], [], 2, 1⟩, 0⟩ :
        Session).db.attendance s.id 5 ≤ 1) ∧
    ((∀ s ∈ (⟨⟨[⟨1, "R1", "Alice", "", "", "", none⟩], [], 2, 1⟩, 0⟩ :
        Session).db.students,
      countAtt (ensure_day_rows
        ⟨⟨[⟨1, "R1", "Alice", "", "", "", none⟩], [], 2, 1⟩, 0⟩ 5).db.attendance
        s.id 5 = 1) ∧
    (ensure_day_rows
        ⟨⟨[⟨1, "R1", "Alice", "", "", "", none⟩], [], 2, 1⟩, 0⟩ 5).db.students =
      (⟨⟨[⟨1, "R1", "Alice", "", "", "", none⟩], [], 2, 1⟩, 0⟩ :
        Session).db.students ∧
    (∃ ins, (ensure_day_rows
        ⟨⟨[⟨1, "R1", "Alice", "", "", "", none⟩], [], 2, 1⟩, 0⟩ 5).db.attendance =
      (⟨⟨[⟨1, "R1", "Alice", "", "", "", none⟩], [], 2, 1⟩, 0⟩ :
        Session).db.attendance ++ ins ∧
      ∀ a ∈ ins, a.day = 5 ∧ a.status = "Absent" ∧ a.timestamp = none ∧
        countAtt (⟨⟨[⟨1, "R1", "Alice", "", "", "", none⟩], [], 2, 1⟩, 0⟩ :
          Session).db.attendance a.student_id 5 = 0 ∧
        ∃ s ∈ (⟨⟨[⟨1, "R1", "Alice", "", "", "", none⟩], [], 2, 1⟩, 0⟩ :
          Session).db.students, s.id = a.student_id) ∧
    (ensure_day_rows (ensure_day_rows
        ⟨⟨[⟨1, "R1", "Alice", "", "", "", none⟩], [], 2, 1⟩, 0⟩ 5) 5).db =
      (ensure_day_rows
        ⟨⟨[⟨1, "R1", "Alice", "", "", "", none⟩], [], 2, 1⟩, 0⟩ 5).db ∧
    (ensure_day_rows
        ⟨⟨[⟨1, "R1", "Alice", "", "", "", none⟩], [], 2, 1⟩, 0⟩ 5).commits =
      (⟨⟨[⟨1, "R1", "Alice", "", "", "", none⟩], [], 2, 1⟩, 0⟩ :
        Session).commits + 1) :=
  ⟨by decide, ensure_day_rows_exactly_one_idempotent
    ⟨⟨[⟨1, "R1", "Alice", "", "", "", none⟩], [], 2, 1⟩, 0⟩ 5 (by decide)⟩

/-! ### `app.py`: POST `/api/mark_attendance` -/

/-- Result of the mark-attendance endpoint: the JSON failure body with its
HTTP status, the JSON success body, or an unhandled exception (`stu` was
`None` and `stu.roll_no` raised). -/
inductive MarkResult where
  | failure (msg : String) (httpStatus : Nat)
  | success (roll_no : String) (name : String) (time : Nat)
  | crash
deriving Repr, DecidableEq

/-- The mutation that writes status `Present` and timestamp `now` into the row returned by
`one_or_none` (the first — under `uq_student_day`, only — row matching
(sid, d)). -/
def markPresent (atts : List Attendance) (sid d now : Nat) : List Attendance :=
  match atts with
  | [] => []
  | a :: rest =>
    if a.student_id == sid && a.day == d then
      { a with status := "Present", timestamp := some now } :: rest
    else a :: markPresent rest sid d now

/-- Model of `s.get(Student, sid)`: primary-key lookup in the students table. -/
def findStudent (studs : List Student) (sid : Nat) : Option Student :=
  studs.find? (fun st => st.id == sid)

/-- Model of `app.api_mark_attendance`: `recognized` is the value returned by
`recognize_once(threshold=70.0)`; `today`/`now` are the day and instant
taken from `datetime.now(ZoneInfo("Asia/Kolkata"))`.  On `None` it returns
the failure JSON with status 400 and touches nothing; otherwise it fetches
or creates (as `Absent`, with a commit) today's row, sets it to `Present`
with timestamp `now`, commits, and answers with the student's roll number,
name and time. -/
def api_mark_attendance (recognized : Option Nat) (today now : Nat)
    (sess : Session) : MarkResult × Session :=
  match recognized with
  | none => (.failure ("No confident face match") 400, sess)
  | some sid =>
    let db := sess.db
    let step1 : DB × Nat :=
      match findAtt db.attendance sid today with
      | some _ => (db, sess.commits)
      | none =>
        ({ db with
            attendance := db.attendance ++
              [{ id := db.nextAttId, student_id := sid, day := today,
                 status := "Absent", timestamp := none }],
            nextAttId := db.nextAttId + 1 },
         sess.commits + 1)
    let db2 : DB :=
      { step1.1 with attendance := markPresent step1.1.attendance sid today now }
    match findStudent db.students sid with
    | some stu => (.success stu.roll_no stu.name now, ⟨db2, step1.2 + 1⟩)
    | none => (.crash, ⟨db2, step1.2 + 1⟩)

lemma countAtt_cons (a : Attendance) (l : List Attendance) (sid d : Nat) :
    countAtt (a :: l) sid d =
      (if a.student_id = sid ∧ a.day = d then 1 else 0) + countAtt l sid d := by
  have h := countAtt_append [a] l sid d
  simpa [countAtt_singleton] using h

lemma countAtt_markPresent (atts : List Attendance) (sid d now sid' d' : Nat) :
    countAtt (markPresent atts sid d now) sid' d' = countAtt atts sid' d' := by
  induction atts with
  | nil => rfl
  | cons a rest ih =>
    simp only [markPresent]
    split
    · rw [countAtt_cons, countAtt_cons]
    · rw [countAtt_cons, countAtt_cons, ih]

lemma countAtt_pos_of_mem {atts : List Attendance} {a : Attendance}
    (ha : a ∈ atts) (h1 : a.student_id = sid) (h2 : a.day = d) :
    0 < countAtt atts sid d := by
  rw [countAtt, List.length_pos]
  intro hnil
  have ham : a ∈ List.filter (fun a => a.student_id == sid && a.day == d) atts :=
    List.mem_filter.mpr ⟨ha, by simp [h1, h2]⟩
  simp [hnil] at ham

/-- After `markPresent`, every row for (sid, d) is `Present` with timestamp
`now`, provided the uniqueness constraint held. -/
lemma markPresent_sets (atts : List Attendance) (sid d now : Nat)
    (huniq : countAtt atts sid d ≤ 1) :
    ∀ a ∈ markPresent atts sid d now, a.student_id = sid → a.day = d →
      a.status = "Present" ∧ a.timestamp = some now := by
  induction atts with
  | nil => intro a ha; simp [markPresent] at ha
  | cons b rest ih =>
    intro a ha h1 h2
    rw [markPresent] at ha
    by_cases hb : b.student_id = sid ∧ b.day = d
    · have hcond : (b.student_id == sid && b.day == d) = true := by
        simp [hb.1, hb.2]
      rw [if_pos hcond] at ha
      rcases List.mem_cons.mp ha with h0 | h0
      · subst h0; exact ⟨rfl, rfl⟩
      · exfalso
        have hposr : 0 < countAtt rest sid d := countAtt_pos_of_mem h0 h1 h2
        rw [countAtt_cons, if_pos hb] at huniq
        omega
    · have hcond : ¬ ((b.student_id == sid && b.day == d) = true) := by
        simp only [Bool.and_eq_true, beq_iff_eq]
        exact hb
      rw [if_neg hcond] at ha
      rcases List.mem_cons.mp ha with h0 | h0
      · exact absurd ⟨h0 ▸ h1, h0 ▸ h2⟩ hb
      · rw [countAtt_cons, if_neg hb] at huniq
        exact ih (by omega) a h0 h1 h2

/-- Every row after `markPresent` is an original row or the freshly marked
`Present` row. -/
lemma markPresent_mem (atts : List Attendance) (sid d now : Nat) :
    ∀ a ∈ markPresent atts sid d now,
      a ∈ atts ∨ (a.status = "Present" ∧ a.timestamp = some now) := by
  induction atts with
  | nil => intro a ha; simp [markPresent] at ha
  | cons b rest ih =>
    intro a ha
    rw [markPresent] at ha
    split at ha
    · rcases List.mem_cons.mp ha with h0 | h0
      · exact Or.inr ⟨by rw [h0], by rw [h0]⟩
      · exact Or.inl (List.mem_cons_of_mem _ h0)
    · rcases List.mem_cons.mp ha with h0 | h0
      · exact Or.inl (h0 ▸ List.mem_cons_self _ _)
      · rcases ih a h0 with h | h
        · exact Or.inl (List.mem_cons_of_mem _ h)
        · exact Or.inr h

lemma findAtt_eq_none_iff (atts : List Attendance) (sid d : Nat) :
    findAtt atts sid d = none ↔ countAtt atts sid d = 0 := by
  rw [← Option.not_isSome_iff_eq_none, findAtt_isSome_iff]
  omega

/-- C2: when the engine recognizes student `sid` (present in the students
table) and the attendance table satisfies the (student, day) uniqueness
constraint, the mark-attendance endpoint answers with that student's roll
number, name and the marking instant `now` (taken in Asia/Kolkata); exactly
one row exists afterwards for (sid, today) and it is `Present` with
timestamp `now`; rows of every other (student, day) pair are untouched, as
is the students table — no second row is ever created for the pair. -/
theorem api_mark_attendance_marks_present (sess : Session) (sid today now : Nat)
    (stu : Student) (hstu : findStudent sess.db.students sid = some stu)
    (huniq : countAtt sess.db.attendance sid today ≤ 1) :
    (api_mark_attendance (some sid) today now sess).1 =
      MarkResult.success stu.roll_no stu.name now ∧
    countAtt (api_mark_attendance (some sid) today now sess).2.db.attendance
      sid today = 1 ∧
    (∀ a ∈ (api_mark_attendance (some sid) today now sess).2.db.attendance,
      a.student_id = sid → a.day = today →
        a.status = "Present" ∧ a.timestamp = some now) ∧
    (∀ sid' d', ¬(sid' = sid ∧ d' = today) →
      countAtt (api_mark_attendance (some sid) today now sess).2.db.attendance
          sid' d' =
        countAtt sess.db.attendance sid' d') ∧
    (api_mark_attendance (some sid) today now sess).2.db.students =
      sess.db.students := by
  rcases hfa : findAtt sess.db.attendance sid today with _ | att
  · have hzero : countAtt sess.db.attendance sid today = 0 :=
      (findAtt_eq_none_iff _ _ _).mp hfa
    simp only [api_mark_attendance, hfa, hstu]
    refine ⟨trivial, ?_, ?_, ?_, trivial⟩
    · rw [countAtt_markPresent, countAtt_append, countAtt_singleton]
      simp [hzero]
    · intro a ha h1 h2
      refine markPresent_sets _ sid today now ?_ a ha h1 h2
      rw [countAtt_append, countAtt_singleton]
      simp [hzero]
    · intro sid' d' hne
      rw [countAtt_markPresent, countAtt_append, countAtt_singleton]
      by_cases hmatch : sid = sid' ∧ today = d'
      · exact absurd ⟨hmatch.1.symm, hmatch.2.symm⟩ hne
      · simp [hmatch]
  · have hpos : 0 < countAtt sess.db.attendance sid today :=
      (findAtt_isSome_iff _ _ _).mp (by rw [hfa]; rfl)
    simp only [api_mark_attendance, hfa, hstu]
    refine ⟨trivial, ?_, ?_, ?_, trivial⟩
    · rw [countAtt_markPresent]; omega
    · intro a ha h1 h2
      exact markPresent_sets _ sid today now huniq a ha h1 h2
    · intro sid' d' _
      rw [countAtt_markPresent]

/-- Witness for C2: a one-student database where today's row already exists
as `Absent`; marking flips it in place. -/
theorem api_mark_attendance_marks_present_witness :
    findStudent (⟨⟨[⟨1, "R1", "Alice", "", "", "", none⟩],
        [⟨1, 1, 5, "Absent", none⟩], 2, 2⟩, 0⟩ : Session).db.students 1 =
      some ⟨1, "R1", "Alice", "", "", "", none⟩ ∧
    countAtt (⟨⟨[⟨1, "R1", "Alice", "", "", "", none⟩],
        [⟨1, 1, 5, "Absent", none⟩], 2, 2⟩, 0⟩ : Session).db.attendance 1 5 ≤ 1 ∧
    ((api_mark_attendance (some 1) 5 100
        ⟨⟨[⟨1, "R1", "Alice", "", "", "", none⟩],
          [⟨1, 1, 5, "Absent", none⟩], 2, 2⟩, 0⟩).1 =
      MarkResult.success ("R1") ("Alice") 100 ∧
    countAtt (api_mark_attendance (some 1) 5 100
        ⟨⟨[⟨1, "R1", "Alice", "", "", "", none⟩],
          [⟨1, 1, 5, "Absent", none⟩], 2, 2⟩, 0⟩).2.db.attendance 1 5 = 1 ∧
    (∀ a ∈ (api_mark_attendance (some 1) 5 100
        ⟨⟨[⟨1, "R1", "Alice", "", "", "", none⟩],
          [⟨1, 1, 5, "Absent", none⟩], 2, 2⟩, 0⟩).2.db.attendance,
      a.student_id = 1 → a.day = 5 →
        a.status = "Present" ∧ a.timestamp = some 100) ∧
    (∀ sid' d', ¬(sid' = 1 ∧ d' = 5) →
      countAtt (api_mark_attendance (some 1) 5 100
          ⟨⟨[⟨1, "R1", "Alice", "", "", "", none⟩],
            [⟨1, 1, 5, "Absent", none⟩], 2, 2⟩, 0⟩).2.db.attendance sid' d' =
        countAtt (⟨⟨[⟨1, "R1", "Alice", "", "", "", none⟩],
            [⟨1, 1, 5, "Absent", none⟩], 2, 2⟩, 0⟩ :
          Session).db.attendance sid' d') ∧
    (api_mark_attendance (some 1) 5 100
        ⟨⟨[⟨1, "R1", "Alice", "", "", "", none⟩],
          [⟨1, 1, 5, "Absent", none⟩], 2, 2⟩, 0⟩).2.db.students =
      (⟨⟨[⟨1, "R1", "Alice", "", "", "", none⟩],
          [⟨1, 1, 5, "Absent", none⟩], 2, 2⟩, 0⟩ : Session).db.students) :=
  ⟨by decide, by decide,
    api_mark_attendance_marks_present
      ⟨⟨[⟨1, "R1", "Alice", "", "", "", none⟩],
        [⟨1, 1, 5, "Absent", none⟩], 2, 2⟩, 0⟩ 1 5 100
      ⟨1, "R1", "Alice", "", "", "", none⟩ (by decide) (by decide)⟩

/-- C7: when the recognition engine yields no confident match, the endpoint
answers with the structured failure body `{ok: false, msg: "No confident
face match"}` under HTTP status 400 and returns the session — database and
commit count — exactly as it was: no attendance row is created or altered. -/
theorem api_mark_attendance_no_match (today now : Nat) (sess : Session) :
    api_mark_attendance none today now sess =
      (MarkResult.failure ("No confident face match") 400, sess) := rfl

/-- The invariant of C8: every `Present` attendance row carries a non-null
timestamp. -/
def presentHasTimestamp (atts : List Attendance) : Prop :=
  ∀ a ∈ atts, a.status = "Present" → a.timestamp ≠ none

instance (atts : List Attendance) : Decidable (presentHasTimestamp atts) := by
  unfold presentHasTimestamp
  infer_instance

/-- C8: both mutators of the attendance table preserve the invariant that a
`Present` row has a non-null timestamp: `ensure_day_rows` only inserts
`Absent` rows without a timestamp, and the mark-attendance endpoint (for any
recognition outcome) sets the timestamp in the same step in which it writes
`Present`. -/
theorem present_has_timestamp_preserved (sess : Session) (d : Nat)
    (recognized : Option Nat) (today now : Nat)
    (h : presentHasTimestamp sess.db.attendance) :
    presentHasTimestamp (ensure_day_rows sess d).db.attendance ∧
    presentHasTimestamp
      (api_mark_attendance recognized today now sess).2.db.attendance := by
  constructor
  · obtain ⟨ins, h1, h2⟩ := ensureDayRowsAux_append sess.db.students d sess.db
    intro a ha hp
    rw [show (ensure_day_rows sess d).db =
        ensureDayRowsAux sess.db.students d sess.db from rfl, h1] at ha
    rcases List.mem_append.mp ha with h0 | h0
    · exact h a h0 hp
    · rcases h2 a h0 with ⟨_, habs, _, _⟩
      rw [habs] at hp
      exact absurd hp (by decide)
  · rcases recognized with _ | sid
    · exact h
    · have hmark : ∀ atts : List Attendance, presentHasTimestamp atts →
          presentHasTimestamp (markPresent atts sid today now) := by
        intro atts hatts a ha hp
        rcases markPresent_mem atts sid today now a ha with h0 | h0
        · exact hatts a h0 hp
        · rw [h0.2]; simp
      have hbase : presentHasTimestamp (sess.db.attendance ++
          [{ id := sess.db.nextAttId, student_id := sid, day := today,
             status := "Absent", timestamp := none }]) := by
        intro a ha hp
        rcases List.mem_append.mp ha with h0 | h0
        · exact h a h0 hp
        · rcases List.mem_singleton.mp h0 with rfl
          simp at hp
      rcases hfs : findStudent sess.db.students sid with _ | stu <;>
        rcases hfa : findAtt sess.db.attendance sid today with _ | att <;>
          simp only [api_mark_attendance, hfa, hfs]
      · exact hmark _ hbase
      · exact hmark _ h
      · exact hmark _ hbase
      · exact hmark _ h

/-- Witness for C8 at a concrete database holding one `Present` row with a
timestamp and one `Absent` row. -/
theorem present_has_timestamp_preserved_witness :
    presentHasTimestamp (⟨⟨[⟨1, "R1", "Alice", "", "", "", none⟩],
        [⟨1, 1, 4, "Present", some 90⟩, ⟨2, 1, 5, "Absent", none⟩], 2, 3⟩, 0⟩ :
      Session).db.attendance ∧
    (presentHasTimestamp (ensure_day_rows
        ⟨⟨[⟨1, "R1", "Alice", "", "", "", none⟩],
          [⟨1, 1, 4, "Present", some 90⟩, ⟨2, 1, 5, "Absent", none⟩], 2, 3⟩, 0⟩
        5).db.attendance ∧
    presentHasTimestamp (api_mark_attendance (some 1) 5 100
        ⟨⟨[⟨1, "R1", "Alice", "", "", "", none⟩],
          [⟨1, 1, 4, "Present", some 90⟩, ⟨2, 1, 5, "Absent", none⟩], 2, 3⟩,
         0⟩).2.db.attendance) :=
  ⟨by decide, present_has_timestamp_preserved
    ⟨⟨[⟨1, "R1", "Alice", "", "", "", none⟩],
      [⟨1, 1, 4, "Present", some 90⟩, ⟨2, 1, 5, "Absent", none⟩], 2, 3⟩, 0⟩
    5 (some 1) 5 100 (by decide)⟩

/-! ### `face_utils.py`: capture, training, recognition -/

/-- One detected face together with the recognizer's
`RECOGNIZER.predict(roi)` result `(label, confidence)`; for LBPH a lower
confidence means a better match. -/
structure Detection where
  label : Nat
  confidence : ℚ
deriving Repr, DecidableEq

/-- The `for (x, y, w, h) in faces` body of `recognize_once`: a detection
replaces the running best `(best_conf, predicted)` when its confidence is
strictly below both the best so far and the threshold. -/
def scanDetections (dets : List Detection) (best : ℚ × Option Nat)
    (threshold : ℚ) : ℚ × Option Nat :=
  match dets with
  | [] => best
  | det :: rest =>
    scanDetections rest
      (if det.confidence < best.1 ∧ det.confidence < threshold
       then (det.confidence, some det.label) else best)
      threshold

/-- Model of `face_utils.recognize_once(threshold)`.  `modelLoaded` is the outcome of
`ensure_model_loaded()` (does `MODEL_PATH` exist), `trainOk` the outcome of
the fallback `train_or_update_model()`; `frames` lists, per successful
`cap.read()`, the detections of that frame — the sequence ends when the
operator presses the stop key or a read fails.  `best_conf` starts at 999.0,
`predicted` at `None`. -/
def recognize_once (modelLoaded trainOk : Bool)
    (frames : List (List Detection)) (threshold : ℚ) : Option Nat :=
  if !modelLoaded && !trainOk then none
  else
    (frames.foldl (fun best dets => scanDetections dets best threshold)
      ((999 : ℚ), none)).2

/-- File-system state seen by the engine: the face-sample dataset as
(grayscale image, student-id label) pairs, as gathered by `_load_dataset`,
and the persisted model file at `MODEL_PATH` (`none` when the file does not
exist).  A trained artifact is abstracted as the labelled sample list it was
trained on. -/
structure EngineFS where
  dataset : List (Nat × Nat)
  modelFile : Option (List (Nat × Nat))
deriving Repr, DecidableEq

/-- Model of `face_utils.train_or_update_model()`: with an empty dataset return
`False` and touch nothing; otherwise train the recognizer on the full
dataset, save it over `MODEL_PATH`, and return `True`. -/
def train_or_update_model (fs : EngineFS) : Bool × EngineFS :=
  if fs.dataset.isEmpty then (false, fs)
  else (true, { fs with modelFile := some fs.dataset })

/-- Zero-padded rendering `f"{count:03d}"` used in sample filenames. -/
def pad3 (n : Nat) : String :=
  if n < 10 then ("00" ++ toString n)
  else if n < 100 then ("0" ++ toString n)
  else toString n

/-- The path `os.path.join(folder, f"{student_id}_{count:03d}.png")` under
`FACES_DIR`. -/
def samplePath (student_id count : Nat) : String :=
  "faces/" ++ toString student_id ++ "/" ++ toString student_id ++ "_" ++
    pad3 count ++ ".png"

/-- One pass of the `for (x, y, w, h) in faces` body of `capture_samples`:
write the crop as the `count`-th sample file, remember it as the preview,
increment `count`.  The loop state is `(count, files written, preview)`;
the face geometry itself is abstracted away. -/
def saveFace (student_id : Nat) (st : Nat × List String × Option String)
    (_face : Nat) : Nat × List String × Option String :=
  let fp := samplePath student_id st.1
  (st.1 + 1, st.2.1 ++ [fp], some fp)

/-- The `while count < samples` loop of `capture_samples`: the budget check
runs once per frame; within a frame every detected face is saved and
counted.  Each element of `frames` is one successful `cap.read()`, holding
one entry per face the cascade detects; the list ends at a failed read or
the operator's stop key. -/
def captureLoop (student_id samples : Nat) (frames : List (List Nat))
    (st : Nat × List String × Option String) :
    Nat × List String × Option String :=
  match frames with
  | [] => st
  | faces :: rest =>
    if st.1 < samples then
      captureLoop student_id samples rest (faces.foldl (saveFace student_id) st)
    else st

/-- Model of `face_utils.capture_samples(student_id, samples)`: returns
`preview_path or ""` together with the list of files written under the
student's directory. -/
def capture_samples (student_id samples : Nat) (frames : List (List Nat)) :
    String × List String :=
  let st := captureLoop student_id samples frames (0, [], none)
  (st.2.2.getD (""), st.2.1)

/-- C5: training with zero stored samples fails and leaves the model file
(and the rest of the file system) untouched; with at least one sample it
trains over the full dataset, persists the artifact, and succeeds. -/
theorem train_or_update_model_empty_vs_nonempty (fs : EngineFS) :
    (fs.dataset = [] → train_or_update_model fs = (false, fs)) ∧
    (fs.dataset ≠ [] →
      (train_or_update_model fs).1 = true ∧
      (train_or_update_model fs).2.modelFile = some fs.dataset ∧
      (train_or_update_model fs).2.dataset = fs.dataset) := by
  constructor
  · intro h
    simp [train_or_update_model, h]
  · intro h
    simp [train_or_update_model, h]

/-- Witness for C5: the empty dataset (model file untouched, failure) and a
one-sample dataset (artifact persisted, success). -/
theorem train_or_update_model_empty_vs_nonempty_witness :
    (([] : List (Nat × Nat)) = [] ∧
      train_or_update_model ⟨[], none⟩ = (false, ⟨[], none⟩)) ∧
    (([(1, 7)] : List (Nat × Nat)) ≠ [] ∧
      ((train_or_update_model ⟨[(1, 7)], none⟩).1 = true ∧
        (train_or_update_model ⟨[(1, 7)], none⟩).2.modelFile = some [(1, 7)] ∧
        (train_or_update_model ⟨[(1, 7)], none⟩).2.dataset = [(1, 7)])) :=
  ⟨⟨rfl, (train_or_update_model_empty_vs_nonempty ⟨[], none⟩).1 rfl⟩,
   ⟨by decide, (train_or_update_model_empty_vs_nonempty ⟨[(1, 7)], none⟩).2
      (by decide)⟩⟩

lemma scanDetections_append (l1 l2 : List Detection) (best : ℚ × Option Nat)
    (threshold : ℚ) :
    scanDetections (l1 ++ l2) best threshold =
      scanDetections l2 (scanDetections l1 best threshold) threshold := by
  induction l1 generalizing best with
  | nil => rfl
  | cons d rest ih =>
    simp only [List.cons_append, scanDetections]
    exact ih _

lemma recognize_once_fold (frames : List (List Detection))
    (best : ℚ × Option Nat) (threshold : ℚ) :
    frames.foldl (fun b dets => scanDetections dets b threshold) best =
      scanDetections frames.flatten best threshold := by
  induction frames generalizing best with
  | nil => rfl
  | cons f rest ih =>
    rw [List.foldl_cons, List.flatten_cons, scanDetections_append, ih]

/-- Loop invariant of `recognize_once`: after scanning some detections on
top of a state that correctly summarizes `processed`, the state correctly
summarizes `processed ++ dets` — `predicted` is `None` exactly when nothing
scanned was strictly below the threshold, and otherwise holds the label of
a below-threshold detection of minimal confidence. -/
lemma scanDetections_invariant (threshold : ℚ) (hth : threshold ≤ 999)
    (dets processed : List Detection) (best : ℚ × Option Nat)
    (hnone : best.2 = none →
      best.1 = 999 ∧ ∀ det ∈ processed, ¬ det.confidence < threshold)
    (hsome : ∀ lab, best.2 = some lab →
      ∃ det ∈ processed, det.label = lab ∧ det.confidence = best.1 ∧
        det.confidence < threshold ∧
        ∀ d2 ∈ processed, d2.confidence < threshold → best.1 ≤ d2.confidence) :
    ((scanDetections dets best threshold).2 = none →
      (scanDetections dets best threshold).1 = 999 ∧
      ∀ det ∈ processed ++ dets, ¬ det.confidence < threshold) ∧
    (∀ lab, (scanDetections dets best threshold).2 = some lab →
      ∃ det ∈ processed ++ dets, det.label = lab ∧
        det.confidence = (scanDetections dets best threshold).1 ∧
        det.confidence < threshold ∧
        ∀ d2 ∈ processed ++ dets, d2.confidence < threshold →
          (scanDetections dets best threshold).1 ≤ d2.confidence) := by
  induction dets generalizing processed best with
  | nil =>
    simp only [scanDetections, List.append_nil]
    exact ⟨hnone, hsome⟩
  | cons det rest ih =>
    simp only [scanDetections]
    have hassoc : processed ++ det :: rest = (processed ++ [det]) ++ rest := by
      simp
    rw [hassoc]
    by_cases hacc : det.confidence < best.1 ∧ det.confidence < threshold
    · rw [if_pos hacc]
      refine ih (processed ++ [det]) (det.confidence, some det.label)
        (fun h => by simp at h) ?_
      intro lab hl
      obtain rfl : det.label = lab := by simpa using hl
      refine ⟨det, by simp, rfl, rfl, hacc.2, ?_⟩
      intro d2 hd2 hlt
      rcases List.mem_append.mp hd2 with h0 | h0
      · rcases hbest2 : best.2 with _ | lab'
        · exact absurd hlt ((hnone hbest2).2 d2 h0)
        · obtain ⟨d0, _, _, _, _, hmin⟩ := hsome lab' hbest2
          exact le_of_lt (lt_of_lt_of_le hacc.1 (hmin d2 h0 hlt))
      · rcases List.mem_singleton.mp h0 with rfl
        exact le_refl _
    · rw [if_neg hacc]
      refine ih (processed ++ [det]) best ?_ ?_
      · intro h
        obtain ⟨h99, hall⟩ := hnone h
        refine ⟨h99, fun d2 hd2 => ?_⟩
        rcases List.mem_append.mp hd2 with h0 | h0
        · exact hall d2 h0
        · rcases List.mem_singleton.mp h0 with rfl
          intro hlt
          exact hacc ⟨by rw [h99]; exact lt_of_lt_of_le hlt hth, hlt⟩
      · intro lab hl
        obtain ⟨d0, hd0, hlab, hconf, hltth, hmin⟩ := hsome lab hl
        refine ⟨d0, List.mem_append_left _ hd0, hlab, hconf, hltth, ?_⟩
        intro d2 hd2 hlt
        rcases List.mem_append.mp hd2 with h0 | h0
        · exact hmin d2 h0 hlt
        · rcases List.mem_singleton.mp h0 with rfl
          by_contra hc
          push_neg at hc
          exact hacc ⟨hc, hlt⟩

/-- C4: for any threshold up to the 999.0 initial best (so in particular
the default 70.0), `recognize_once` accepts a detection exactly when its
confidence is strictly below the threshold; it returns `None` iff no
detection over all frames was accepted, and any returned label belongs to
an accepted detection of minimal confidence.  If neither a persisted model
nor trainable data exists, it returns `None`.  Concretely at threshold 70:
confidence 65 is accepted, 75 and exactly 70 are rejected, and over
confidences [80, 40], [55] the label of the confidence-40 detection wins. -/
theorem recognize_once_strict_threshold_best (frames : List (List Detection))
    (threshold : ℚ) (hth : threshold ≤ 999) :
    (recognize_once true true frames threshold = none ↔
      ∀ det ∈ frames.flatten, ¬ det.confidence < threshold) ∧
    (∀ lab, recognize_once true true frames threshold = some lab →
      ∃ det ∈ frames.flatten, det.label = lab ∧ det.confidence < threshold ∧
        ∀ d2 ∈ frames.flatten, d2.confidence < threshold →
          det.confidence ≤ d2.confidence) ∧
    recognize_once false false frames threshold = none ∧
    recognize_once true true [[⟨7, 65⟩]] 70 = some 7 ∧
    recognize_once true true [[⟨7, 75⟩]] 70 = none ∧
    recognize_once true true [[⟨7, 70⟩]] 70 = none ∧
    recognize_once true true [[⟨1, 80⟩, ⟨2, 40⟩], [⟨3, 55⟩]] 70 = some 2 ∧
    recognize_once true true [] 70 = none ∧
    recognize_once true true [[], []] 70 = none := by
  have hrw : recognize_once true true frames threshold =
      (scanDetections frames.flatten ((999 : ℚ), none) threshold).2 := by
    rw [recognize_once, recognize_once_fold]
    rfl
  have hinv := scanDetections_invariant threshold hth frames.flatten []
    ((999 : ℚ), none) (fun _ => ⟨rfl, by simp⟩) (fun lab h => by simp at h)
  rw [List.nil_append] at hinv
  refine ⟨?_, ?_, rfl, by decide, by decide, by decide, by decide, rfl, rfl⟩
  · constructor
    · intro h
      rw [hrw] at h
      exact (hinv.1 h).2
    · intro h
      rw [hrw]
      rcases hres : (scanDetections frames.flatten ((999 : ℚ), none) threshold).2
        with _ | lab
      · rfl
      · obtain ⟨d0, hd0, _, _, hltth, _⟩ := hinv.2 lab hres
        exact absurd hltth (h d0 hd0)
  · intro lab h
    rw [hrw] at h
    obtain ⟨d0, hd0, hlab, hconf, hltth, hmin⟩ := hinv.2 lab h
    refine ⟨d0, hd0, hlab, hltth, fun d2 hd2 hlt => ?_⟩
    rw [hconf]
    exact hmin d2 hd2 hlt

/-- Witness for C4 at the claim's sample inputs (threshold 70, confidences
[80, 40], [55]). -/
theorem recognize_once_strict_threshold_best_witness :
    ((70 : ℚ) ≤ 999) ∧
    ((recognize_once true true [[⟨1, 80⟩, ⟨2, 40⟩], [⟨3, 55⟩]] 70 = none ↔
      ∀ det ∈ ([[⟨1, 80⟩, ⟨2, 40⟩], [⟨3, 55⟩]] :
          List (List Detection)).flatten, ¬ det.confidence < 70) ∧
    (∀ lab, recognize_once true true [[⟨1, 80⟩, ⟨2, 40⟩], [⟨3, 55⟩]] 70 =
        some lab →
      ∃ det ∈ ([[⟨1, 80⟩, ⟨2, 40⟩], [⟨3, 55⟩]] :
          List (List Detection)).flatten, det.label = lab ∧
        det.confidence < 70 ∧
        ∀ d2 ∈ ([[⟨1, 80⟩, ⟨2, 40⟩], [⟨3, 55⟩]] :
            List (List Detection)).flatten, d2.confidence < 70 →
          det.confidence ≤ d2.confidence) ∧
    recognize_once false false [[⟨1, 80⟩, ⟨2, 40⟩], [⟨3, 55⟩]] 70 = none ∧
    recognize_once true true [[⟨7, 65⟩]] 70 = some 7 ∧
    recognize_once true true [[⟨7, 75⟩]] 70 = none ∧
    recognize_once true true [[⟨7, 70⟩]] 70 = none ∧
    recognize_once true true [[⟨1, 80⟩, ⟨2, 40⟩], [⟨3, 55⟩]] 70 = some 2 ∧
    recognize_once true true [] 70 = none ∧
    recognize_once true true [[], []] 70 = none) :=
  ⟨by decide, recognize_once_strict_threshold_best
    [[⟨1, 80⟩, ⟨2, 40⟩], [⟨3, 55⟩]] 70 (by decide)⟩

lemma saveFace_foldl_last (student_id : Nat) (faces : List Nat)
    (st : Nat × List String × Option String) (h : st.2.1.getLast? = st.2.2) :
    (faces.foldl (saveFace student_id) st).2.1.getLast? =
      (faces.foldl (saveFace student_id) st).2.2 := by
  induction faces generalizing st with
  | nil => exact h
  | cons f rest ih =>
    rw [List.foldl_cons]
    exact ih _ (by simp [saveFace, List.getLast?_concat])

lemma captureLoop_last (student_id samples : Nat) (frames : List (List Nat))
    (st : Nat × List String × Option String) (h : st.2.1.getLast? = st.2.2) :
    (captureLoop student_id samples frames st).2.1.getLast? =
      (captureLoop student_id samples frames st).2.2 := by
  induction frames generalizing st with
  | nil => exact h
  | cons faces rest ih =>
    rw [captureLoop]
    split
    · exact ih _ (saveFace_foldl_last student_id faces st h)
    · exact h

/-- C10: the returned preview path of `capture_samples` is always the path
of the last file saved (empty when nothing was saved); and because the
budget check runs only once per frame while every face of a frame is saved
and counted, a single frame holding more faces than the remaining budget
overshoots the requested count — concretely, a two-face frame against a
requested count of 1 saves two files, `<5>_000.png` and `<5>_001.png`, and
previews the second. -/
theorem capture_samples_preview_and_overshoot (student_id samples : Nat)
    (frames : List (List Nat)) :
    (((capture_samples student_id samples frames).2 = [] ∧
        (capture_samples student_id samples frames).1 = "") ∨
      (capture_samples student_id samples frames).2.getLast? =
        some (capture_samples student_id samples frames).1) ∧
    (capture_samples 5 1 [[0, 0]]).2.length = 2 ∧
    1 < (capture_samples 5 1 [[0, 0]]).2.length ∧
    (capture_samples 5 1 [[0, 0]]).2 = [samplePath 5 0, samplePath 5 1] ∧
    (capture_samples 5 1 [[0, 0]]).1 = samplePath 5 1 := by
  refine ⟨?_, rfl, by decide, rfl, rfl⟩
  have hlast := captureLoop_last student_id samples frames (0, [], none) rfl
  rcases hprev : (captureLoop student_id samples frames (0, [], none)).2.2
    with _ | p
  · left
    rw [hprev] at hlast
    constructor
    · exact List.getLast?_eq_none_iff.mp hlast
    · show (captureLoop student_id samples frames (0, [], none)).2.2.getD ("") = ""
      rw [hprev]
      rfl
  · right
    show (captureLoop student_id samples frames (0, [], none)).2.1.getLast? =
      some ((captureLoop student_id samples frames (0, [], none)).2.2.getD (""))
    rw [hlast, hprev]
    rfl

/-! ### `app.py`: `/register` and `/student/<sid>/edit` -/

/-- Camera/engine side effects an endpoint triggers, in order. -/
inductive CamEvent where
  | capture (student_id : Nat) (samples : Nat)
  | train
deriving Repr, DecidableEq

inductive RegisterOutcome where
  | duplicateWarning
  | registered (trained : Bool)
deriving Repr, DecidableEq

inductive EditOutcome where
  | notFound
  | updated
deriving Repr, DecidableEq

/-- Model of `s.query(Student).filter_by(roll_no=roll).one_or_none()`. -/
def findStudentByRoll (studs : List Student) (roll : String) : Option Student :=
  studs.find? (fun st => st.roll_no == roll)

/-- Number of students carrying a given roll number — used to state the
`roll_no` uniqueness constraint. -/
def rollCount (studs : List Student) (roll : String) : Nat :=
  (studs.filter (fun st => st.roll_no == roll)).length

/-- Model of `app.register` (POST).  Form fields arrive `.strip()`ped; `preview` is
what `capture_samples(st.id, samples=20)` returns (`""` when nothing was
captured) and `trained` what `train_or_update_model()` returns.  A duplicate
roll number flashes a warning and redirects back to the form before any
record is created and before any capture or training.  Otherwise the
student is inserted (commit), samples are captured, the preview path is
stored if non-empty (commit), the model is always retrained, and the user
is redirected to the student list. -/
def register (roll_no name email klass sect : String) (preview : String)
    (trained : Bool) (sess : Session) :
    RegisterOutcome × Session × List CamEvent :=
  match findStudentByRoll sess.db.students roll_no with
  | some _ => (.duplicateWarning, sess, [])
  | none =>
    let st : Student :=
      { id := sess.db.nextStudentId, roll_no := roll_no, name := name,
        email := email, klass := klass, sect := sect, image_path := none }
    let db1 : DB :=
      { sess.db with
        students := sess.db.students ++ [st]
        nextStudentId := sess.db.nextStudentId + 1 }
    let step2 : DB × Nat :=
      if preview ≠ "" then
        ({ db1 with students := db1.students.map (fun t =>
            if t.id == st.id then { t with image_path := some preview } else t) },
         sess.commits + 2)
      else (db1, sess.commits + 1)
    (.registered trained, ⟨step2.1, step2.2⟩, [.capture st.id 20, .train])

/-- Model of `app.student_edit` (POST).  `s.get(Student, sid)`; when absent, flash
"Student not found" and redirect without touching anything.  Otherwise
overwrite every editable field — including `roll_no`, with no duplicate
check — optionally recapture 15 samples (storing the preview if non-empty),
commit, and always retrain. -/
def student_edit (sid : Nat) (roll_no name email klass sect : String)
    (recapture : Bool) (preview : String) (sess : Session) :
    EditOutcome × Session × List CamEvent :=
  match findStudent sess.db.students sid with
  | none => (.notFound, sess, [])
  | some _ =>
    let upd : Student → Student := fun t =>
      if t.id == sid then
        { t with roll_no := roll_no, name := name, email := email,
                 klass := klass, sect := sect,
                 image_path := if recapture ∧ preview ≠ "" then some preview
                               else t.image_path }
      else t
    (.updated,
     ⟨{ sess.db with students := sess.db.students.map upd }, sess.commits + 1⟩,
     if recapture then [.capture sid 15, .train] else [.train])

/-- C6: a registration whose roll number is already taken changes nothing —
the session (student table included) is returned as-is, no capture and no
training is attempted, the outcome is the warning notice with a redirect
back to the registration form. -/
theorem register_duplicate_roll_rejected (roll_no name email klass sect
    preview : String) (trained : Bool) (sess : Session) (stu : Student)
    (hdup : findStudentByRoll sess.db.students roll_no = some stu) :
    register roll_no name email klass sect preview trained sess =
      (RegisterOutcome.duplicateWarning, sess, []) := by
  simp only [register, hdup]

/-- Witness for C6: registering roll "R1" twice against a database that
already holds a student with roll "R1". -/
theorem register_duplicate_roll_rejected_witness :
    findStudentByRoll (⟨⟨[⟨1, "R1", "Alice", "", "", "", none⟩], [], 2, 1⟩,
        0⟩ : Session).db.students ("R1") =
      some ⟨1, "R1", "Alice", "", "", "", none⟩ ∧
    register ("R1") ("Bob") ("") ("") ("") ("") true
        ⟨⟨[⟨1, "R1", "Alice", "", "", "", none⟩], [], 2, 1⟩, 0⟩ =
      (RegisterOutcome.duplicateWarning,
       ⟨⟨[⟨1, "R1", "Alice", "", "", "", none⟩], [], 2, 1⟩, 0⟩, []) :=
  ⟨by decide, register_duplicate_roll_rejected ("R1") ("Bob") ("") ("") ("") ("") true
    ⟨⟨[⟨1, "R1", "Alice", "", "", "", none⟩], [], 2, 1⟩, 0⟩
    ⟨1, "R1", "Alice", "", "", "", none⟩ (by decide)⟩

lemma rollCount_append (l1 l2 : List Student) (r : String) :
    rollCount (l1 ++ l2) r = rollCount l1 r + rollCount l2 r := by
  simp [rollCount, List.filter_append]

lemma rollCount_singleton (st : Student) (r : String) :
    rollCount [st] r = if st.roll_no = r then 1 else 0 := by
  by_cases h : st.roll_no = r <;> simp [rollCount, List.filter_singleton, h]

lemma rollCount_cons (st : Student) (l : List Student) (r : String) :
    rollCount (st :: l) r = (if st.roll_no = r then 1 else 0) + rollCount l r := by
  have h := rollCount_append [st] l r
  simpa [rollCount_singleton] using h

lemma findStudentByRoll_none_count (studs : List Student) (r : String)
    (h : findStudentByRoll studs r = none) : rollCount studs r = 0 := by
  rw [rollCount, List.length_eq_zero, List.filter_eq_nil_iff]
  intro st hst
  exact List.find?_eq_none.mp h st hst

lemma rollCount_map_roll_preserving (studs : List Student)
    (f : Student → Student) (h : ∀ st, (f st).roll_no = st.roll_no)
    (r : String) : rollCount (studs.map f) r = rollCount studs r := by
  induction studs with
  | nil => rfl
  | cons st rest ih =>
    rw [List.map_cons, rollCount_cons, rollCount_cons, ih, h st]

/-- Counterexample to C9: a constraint-valid table with rolls "A" and "B";
editing the roll number of student 2 to "A" goes straight through — no duplicate
check — and yields two students with roll "A", i.e. exactly the state the
`roll_no` uniqueness constraint would reject on commit. -/
theorem student_edit_breaks_roll_uniqueness :
    rollCount (⟨⟨[⟨1, "A", "Alice", "", "", "", none⟩,
        ⟨2, "B", "Bob", "", "", "", none⟩], [], 3, 1⟩, 0⟩ :
      Session).db.students ("A") = 1 ∧
    (student_edit 2 "A" "Bob" "" "" "" false ("")
        ⟨⟨[⟨1, "A", "Alice", "", "", "", none⟩,
          ⟨2, "B", "Bob", "", "", "", none⟩], [], 3, 1⟩, 0⟩).1 =
      EditOutcome.updated ∧
    rollCount (student_edit 2 "A" "Bob" "" "" "" false ("")
        ⟨⟨[⟨1, "A", "Alice", "", "", "", none⟩,
          ⟨2, "B", "Bob", "", "", "", none⟩], [], 3, 1⟩, 0⟩).2.1.db.students
      "A" = 2 := by
  decide

/-- C9 (amended): the register endpoint pre-checks the roll number and the
mark-attendance endpoint pre-checks the (student, day) pair, so those two
writes preserve their uniqueness constraints; but the student-edit
operation writes `roll_no` with no duplicate check, and a concrete edit
reaches the constraint-violating state (two students with roll "A"). -/
theorem mutation_duplicate_precheck_status (roll_no name email klass sect
    preview : String) (trained : Bool) (sess : Session) (sid today now : Nat)
    (hroll : ∀ r, rollCount sess.db.students r ≤ 1)
    (hatt : ∀ s d, countAtt sess.db.attendance s d ≤ 1) :
    (∀ r, rollCount (register roll_no name email klass sect preview trained
        sess).2.1.db.students r ≤ 1) ∧
    (∀ s d, countAtt (api_mark_attendance (some sid) today now
        sess).2.db.attendance s d ≤ 1) ∧
    rollCount (student_edit 2 "A" "Bob" "" "" "" false ("")
        ⟨⟨[⟨1, "A", "Alice", "", "", "", none⟩,
          ⟨2, "B", "Bob", "", "", "", none⟩], [], 3, 1⟩, 0⟩).2.1.db.students
      "A" = 2 := by
  refine ⟨?_, ?_, by decide⟩
  · intro r
    rcases hfind : findStudentByRoll sess.db.students roll_no with _ | stu
    · have hzero : rollCount sess.db.students roll_no = 0 :=
        findStudentByRoll_none_count _ _ hfind
      have hbase : rollCount (sess.db.students ++
          [{ id := sess.db.nextStudentId, roll_no := roll_no, name := name,
             email := email, klass := klass, sect := sect,
             image_path := none }]) r ≤ 1 := by
        rw [rollCount_append, rollCount_singleton]
        by_cases hr : roll_no = r
        · subst hr; simp [hzero]
        · have hb := hroll r
          dsimp only
          rw [if_neg hr]
          omega
      by_cases hprev : preview ≠ ""
      · simp only [register, hfind]
        rw [if_pos hprev]
        dsimp only
        rw [rollCount_map_roll_preserving]
        · exact hbase
        · intro st
          dsimp only
          split <;> rfl
      · simp only [register, hfind]
        rw [if_neg hprev]
        exact hbase
    · simp only [register, hfind]
      exact hroll r
  · intro s d
    rcases hfs : findStudent sess.db.students sid with _ | stu <;>
      rcases hfa : findAtt sess.db.attendance sid today with _ | att <;>
        simp only [api_mark_attendance, hfa, hfs] <;>
        rw [countAtt_markPresent]
    · have hzero : countAtt sess.db.attendance sid today = 0 :=
        (findAtt_eq_none_iff _ _ _).mp hfa
      rw [countAtt_append, countAtt_singleton]
      by_cases hm : sid = s ∧ today = d
      · rcases hm with ⟨rfl, rfl⟩
        simp [hzero]
      · have hb := hatt s d
        dsimp only
        rw [if_neg hm]
        omega
    · exact hatt s d
    · have hzero : countAtt sess.db.attendance sid today = 0 :=
        (findAtt_eq_none_iff _ _ _).mp hfa
      rw [countAtt_append, countAtt_singleton]
      by_cases hm : sid = s ∧ today = d
      · rcases hm with ⟨rfl, rfl⟩
        simp [hzero]
      · have hb := hatt s d
        dsimp only
        rw [if_neg hm]
        omega
    · exact hatt s d

/-- Witness for the amended C9 at a one-student, one-row database. -/
theorem mutation_duplicate_precheck_status_witness :
    (∀ r, rollCount (⟨⟨[⟨1, "R1", "Alice", "", "", "", none⟩],
        [⟨1, 1, 5, "Absent", none⟩], 2, 2⟩, 0⟩ :
      Session).db.students r ≤ 1) ∧
    (∀ s d, countAtt (⟨⟨[⟨1, "R1", "Alice", "", "", "", none⟩],
        [⟨1, 1, 5, "Absent", none⟩], 2, 2⟩, 0⟩ :
      Session).db.attendance s d ≤ 1) ∧
    ((∀ r, rollCount (register ("R2") ("Bob") ("") ("") ("") ("") true
        ⟨⟨[⟨1, "R1", "Alice", "", "", "", none⟩],
          [⟨1, 1, 5, "Absent", none⟩], 2, 2⟩, 0⟩).2.1.db.students r ≤ 1) ∧
    (∀ s d, countAtt (api_mark_attendance (some 1) 5 100
        ⟨⟨[⟨1, "R1", "Alice", "", "", "", none⟩],
          [⟨1, 1, 5, "Absent", none⟩], 2, 2⟩, 0⟩).2.db.attendance s d ≤ 1) ∧
    rollCount (student_edit 2 "A" "Bob" "" "" "" false ("")
        ⟨⟨[⟨1, "A", "Alice", "", "", "", none⟩,
          ⟨2, "B", "Bob", "", "", "", none⟩], [], 3, 1⟩, 0⟩).2.1.db.students
      "A" = 2) :=
  ⟨fun _ => List.length_filter_le _ _,
   fun _ _ => List.length_filter_le _ _,
   mutation_duplicate_precheck_status ("R2") ("Bob") ("") ("") ("") ("") true
     ⟨⟨[⟨1, "R1", "Alice", "", "", "", none⟩],
       [⟨1, 1, 5, "Absent", none⟩], 2, 2⟩, 0⟩ 1 5 100
     (fun _ => List.length_filter_le _ _)
     (fun _ _ => List.length_filter_le _ _)⟩

/-! ### `app.py`: read endpoints over a day's attendance -/

/-- One rendered row (attendance view / JSON / spreadsheet / PDF): roll
number, name, status, optional timestamp. -/
structure AttRow where
  roll_no : String
  name : String
  status : String
  timestamp : Option Nat
deriving Repr, DecidableEq

/-- Model of `query(Attendance, Student).join(Student, Attendance.student_id ==
Student.id).filter(Attendance.day == d)`. -/
def joinAttendanceStudents (atts : List Attendance) (studs : List Student)
    (d : Nat) : List (Attendance × Student) :=
  (atts.filter (fun a => a.day == d)).flatMap
    (fun a => (studs.filter (fun s => s.id == a.student_id)).map
      (fun s => (a, s)))

/-- Insertion step of `order_by(Student.roll_no)`. -/
def insertByRoll (p : Attendance × Student) :
    List (Attendance × Student) → List (Attendance × Student)
  | [] => [p]
  | q :: rest =>
    if p.2.roll_no ≤ q.2.roll_no then p :: q :: rest
    else q :: insertByRoll p rest

/-- Sorting `order_by(Student.roll_no)` as an insertion sort. -/
def sortByRoll : List (Attendance × Student) → List (Attendance × Student)
  | [] => []
  | p :: rest => insertByRoll p (sortByRoll rest)

/-- The joined, day-filtered, roll-ordered rows every reader renders. -/
def rowsForDay (db : DB) (d : Nat) : List AttRow :=
  (sortByRoll (joinAttendanceStudents db.attendance db.students d)).map
    (fun p => { roll_no := p.2.roll_no, name := p.2.name,
                status := p.1.status, timestamp := p.1.timestamp })

/-- GET `/`: `ensure_day_rows` for today, then the total student count and
today's `Present` count. -/
def dashboard (today : Nat) (sess : Session) : (Nat × Nat) × Session :=
  let sess1 := ensure_day_rows sess today
  ((sess1.db.students.length,
    (sess1.db.attendance.filter
      (fun a => a.day == today && a.status == "Present")).length),
   sess1)

/-- GET `/attendance`: `ensure_day_rows` for today, then the day's table. -/
def attendance_page (today : Nat) (sess : Session) : List AttRow × Session :=
  let sess1 := ensure_day_rows sess today
  (rowsForDay sess1.db today, sess1)

/-- The `/api/attendance_today` JSON body. -/
structure AttendanceJson where
  total : Nat
  present : Nat
  absent : Nat
  rows : List AttRow
deriving Repr, DecidableEq

/-- GET `/api/attendance_today`: reads today's joined rows directly — it
does not call `ensure_day_rows` — and aggregates present/absent counts. -/
def api_attendance_today (today : Nat) (sess : Session) :
    AttendanceJson × Session :=
  let data := rowsForDay sess.db today
  let present := (data.filter (fun r => r.status == "Present")).length
  ({ total := data.length, present := present,
     absent := data.length - present, rows := data }, sess)

/-- Model of `app._download_attendance_for_date`, the spreadsheet export helper
behind `/download_attendance` and `/download_attendance_by_date`: reads the
day's joined rows directly — it does not call `ensure_day_rows`. -/
def download_attendance_for_date (d : Nat) (sess : Session) :
    List AttRow × Session :=
  (rowsForDay sess.db d, sess)

/-- GET `/download_attendance_pdf`: queries the same joined rows directly —
it does not call `ensure_day_rows` — and draws one document line per row. -/
def download_attendance_pdf (d : Nat) (sess : Session) :
    List AttRow × Session :=
  (rowsForDay sess.db d, sess)

lemma mem_insertByRoll (p q : Attendance × Student)
    (l : List (Attendance × Student)) :
    q ∈ insertByRoll p l ↔ q = p ∨ q ∈ l := by
  induction l with
  | nil => simp [insertByRoll]
  | cons b rest ih =>
    rw [insertByRoll]
    split
    · simp [List.mem_cons]
    · rw [List.mem_cons, ih, List.mem_cons]
      tauto

lemma mem_sortByRoll (l : List (Attendance × Student))
    (q : Attendance × Student) :
    q ∈ sortByRoll l ↔ q ∈ l := by
  induction l with
  | nil => simp [sortByRoll]
  | cons p rest ih =>
    rw [sortByRoll, mem_insertByRoll, ih, List.mem_cons]

lemma mem_joinAttendanceStudents (atts : List Attendance)
    (studs : List Student) (d : Nat) (a : Attendance) (s : Student)
    (ha : a ∈ atts) (hd : a.day = d) (hs : s ∈ studs)
    (hid : s.id = a.student_id) :
    (a, s) ∈ joinAttendanceStudents atts studs d := by
  rw [joinAttendanceStudents, List.mem_flatMap]
  refine ⟨a, List.mem_filter.mpr ⟨ha, by simp [hd]⟩, ?_⟩
  exact List.mem_map.mpr ⟨s, List.mem_filter.mpr ⟨hs, by simp [hid]⟩, rfl⟩

/-- Counterexample to C3: a database with one registered student and no
attendance rows.  The today's-attendance JSON endpoint and both exports
return zero rows and hand the session back untouched — the student does not
appear with a default `Absent` row — while the (seeding) dashboard counts
the student. -/
theorem attendance_reads_skip_seeding :
    (⟨⟨[⟨1, "R1", "Alice", "", "", "", none⟩], [], 2, 1⟩, 0⟩ :
      Session).db.students.length = 1 ∧
    (api_attendance_today 5
      ⟨⟨[⟨1, "R1", "Alice", "", "", "", none⟩], [], 2, 1⟩, 0⟩).1.total = 0 ∧
    (api_attendance_today 5
      ⟨⟨[⟨1, "R1", "Alice", "", "", "", none⟩], [], 2, 1⟩, 0⟩).1.rows = [] ∧
    (api_attendance_today 5
        ⟨⟨[⟨1, "R1", "Alice", "", "", "", none⟩], [], 2, 1⟩, 0⟩).2 =
      ⟨⟨[⟨1, "R1", "Alice", "", "", "", none⟩], [], 2, 1⟩, 0⟩ ∧
    (download_attendance_for_date 5
      ⟨⟨[⟨1, "R1", "Alice", "", "", "", none⟩], [], 2, 1⟩, 0⟩).1 = [] ∧
    (download_attendance_for_date 5
        ⟨⟨[⟨1, "R1", "Alice", "", "", "", none⟩], [], 2, 1⟩, 0⟩).2 =
      ⟨⟨[⟨1, "R1", "Alice", "", "", "", none⟩], [], 2, 1⟩, 0⟩ ∧
    (download_attendance_pdf 5
      ⟨⟨[⟨1, "R1", "Alice", "", "", "", none⟩], [], 2, 1⟩, 0⟩).1 = [] ∧
    (download_attendance_pdf 5
        ⟨⟨[⟨1, "R1", "Alice", "", "", "", none⟩], [], 2, 1⟩, 0⟩).2 =
      ⟨⟨[⟨1, "R1", "Alice", "", "", "", none⟩], [], 2, 1⟩, 0⟩ ∧
    (dashboard 5
      ⟨⟨[⟨1, "R1", "Alice", "", "", "", none⟩], [], 2, 1⟩, 0⟩).1 = (1, 0) := by
  decide

/-- C3 (amended): only the dashboard and the attendance listing page invoke
`ensure_day_rows` before reading, and under them every existing student
appears in the rendered table; the today's-attendance JSON endpoint, the
spreadsheet export, and the PDF export read the day's rows as they stand
and leave the database untouched, so a student without a row for that day
is absent from their output. -/
theorem attendance_reads_seeding_status (sess : Session) (d : Nat) :
    (dashboard d sess).2 = ensure_day_rows sess d ∧
    (attendance_page d sess).2 = ensure_day_rows sess d ∧
    (api_attendance_today d sess).2 = sess ∧
    (download_attendance_for_date d sess).2 = sess ∧
    (download_attendance_pdf d sess).2 = sess ∧
    (∀ stu ∈ sess.db.students,
      ∃ row ∈ (attendance_page d sess).1, row.roll_no = stu.roll_no) := by
  refine ⟨rfl, rfl, rfl, rfl, rfl, ?_⟩
  intro stu hstu
  have hcov := ensureDayRowsAux_covers sess.db.students d sess.db stu hstu
  rw [findAtt, List.find?_isSome] at hcov
  obtain ⟨a, ha, hp⟩ := hcov
  simp only [Bool.and_eq_true, beq_iff_eq] at hp
  refine ⟨{ roll_no := stu.roll_no, name := stu.name, status := a.status,
            timestamp := a.timestamp }, ?_, rfl⟩
  show _ ∈ rowsForDay (ensure_day_rows sess d).db d
  rw [rowsForDay]
  refine List.mem_map.mpr ⟨(a, stu), ?_, rfl⟩
  rw [mem_sortByRoll]
  refine mem_joinAttendanceStudents _ _ _ _ _ ha hp.2 ?_ hp.1.symm
  rw [show (ensure_day_rows sess d).db =
      ensureDayRowsAux sess.db.students d sess.db from rfl,
    ensureDayRowsAux_students]
  exact hstu

/-- Witness for the amended C3 at a concrete one-student database. -/
theorem attendance_reads_seeding_status_witness :
    (dashboard 5 ⟨⟨[⟨1, "R1", "Alice", "", "", "", none⟩], [], 2, 1⟩, 0⟩).2 =
      ensure_day_rows
        ⟨⟨[⟨1, "R1", "Alice", "", "", "", none⟩], [], 2, 1⟩, 0⟩ 5 ∧
    (attendance_page 5
        ⟨⟨[⟨1, "R1", "Alice", "", "", "", none⟩], [], 2, 1⟩, 0⟩).2 =
      ensure_day_rows
        ⟨⟨[⟨1, "R1", "Alice", "", "", "", none⟩], [], 2, 1⟩, 0⟩ 5 ∧
    (api_attendance_today 5
        ⟨⟨[⟨1, "R1", "Alice", "", "", "", none⟩], [], 2, 1⟩, 0⟩).2 =
      ⟨⟨[⟨1, "R1", "Alice", "", "", "", none⟩], [], 2, 1⟩, 0⟩ ∧
    (download_attendance_for_date 5
        ⟨⟨[⟨1, "R1", "Alice", "", "", "", none⟩], [], 2, 1⟩, 0⟩).2 =
      ⟨⟨[⟨1, "R1", "Alice", "", "", "", none⟩], [], 2, 1⟩, 0⟩ ∧
    (download_attendance_pdf 5
        ⟨⟨[⟨1, "R1", "Alice", "", "", "", none⟩], [], 2, 1⟩, 0⟩).2 =
      ⟨⟨[⟨1, "R1", "Alice", "", "", "", none⟩], [], 2, 1⟩, 0⟩ ∧
    (∀ stu ∈ (⟨⟨[⟨1, "R1", "Alice", "", "", "", none⟩], [], 2, 1⟩, 0⟩ :
        Session).db.students,
      ∃ row ∈ (attendance_page 5
          ⟨⟨[⟨1, "R1", "Alice", "", "", "", none⟩], [], 2, 1⟩, 0⟩).1,
        row.roll_no = stu.roll_no) :=
  attendance_reads_seeding_status
    ⟨⟨[⟨1, "R1", "Alice", "", "", "", none⟩], [], 2, 1⟩, 0⟩ 5

end FaceAttendance
